import Mathlib

/-!
# Verification of the jiraexport issue-normalization pipeline

Shallow embedding of the `enstrom/jiraexport` server code
(`server/jira_client.py`, `server/app.py`, `server/pdf_generator.py`,
`server/word_generator.py`, `server/markdown_generator.py`) together with
proofs about the embedded definitions.

Conventions used throughout:
* Python JSON values are modelled by `JValue`; Python dicts are ordered
  association lists (`List (String × JValue)`), matching CPython's
  insertion-order semantics.
* Fallible Python code (attribute errors on non-dict values, etc.) is
  modelled with `Except String`.
* Recursion over nested JSON uses an explicit fuel argument initialised
  with `sizeOf`, which dominates the recursion depth of the Python
  original on every finite value.
-/

namespace Jiraexport

/-- A JSON value as handled by the Python code.  Numbers are modelled as
rationals (JSON numbers; float rounding is irrelevant to the claims
below, which never mix float arithmetic with number parsing). -/
inductive JValue where
  | null : JValue
  | bool : Bool → JValue
  | num : ℚ → JValue
  | str : String → JValue
  | arr : List JValue → JValue
  | obj : List (String × JValue) → JValue

/-- Dict lookup: Python `d[k]` / `k in d` primitive.  First binding wins,
matching Python dicts (which have unique keys). -/
def jLookup (kvs : List (String × JValue)) (k : String) : Option JValue :=
  kvs.lookup k

/-- Python `d.get(k, default)`: the stored value (even `None`) if the key
is present, otherwise the default. -/
def jKGetD (kvs : List (String × JValue)) (k : String) (d : JValue) : JValue :=
  (jLookup kvs k).getD d

/-- Python `d.get(k)` (default `None`). -/
def jKGet (kvs : List (String × JValue)) (k : String) : JValue :=
  jKGetD kvs k .null

/-- Python truthiness of a JSON value: `None`, `False`, `0`, `""`, `[]`
and `{}` are falsy. -/
def jTruthy : JValue → Bool
  | .null => false
  | .bool b => b
  | .num q => q != 0
  | .str s => s != ""
  | .arr xs => !xs.isEmpty
  | .obj kvs => !kvs.isEmpty

/-- Python `a or b` on JSON values (returns `a` when truthy, else `b`). -/
def pyOr (a b : JValue) : JValue :=
  if jTruthy a then a else b

/-- ASCII lowering of a character (Python `str.lower` restricted to
ASCII, which covers every string the code compares). -/
def lowChar (c : Char) : Char := c.toLower

/-- Python `s.lower()` (ASCII). -/
def pyLower (s : String) : String := String.mk (s.data.map lowChar)

/-- `needle` occurs as a contiguous sublist of `hay` (Python
`needle in hay` on strings). -/
def occursIn (needle hay : List Char) : Bool :=
  match hay with
  | [] => needle.isEmpty
  | _ :: t => needle.isPrefixOf hay || occursIn needle t

/-- Python substring test `needle in hay`. -/
def strIn (needle hay : String) : Bool := occursIn needle.data hay.data

/-! ## Batch export loop (`server/app.py`, `export_issues`, lines 304-391)

The per-issue pipeline (fetch the issue, download attachments, render
one file, read it back as base64) is abstracted as a function
`process : String → Except String String` from an issue key to either a
base64 payload or the message of the exception raised while handling
that key; the `try`/`except` of the loop catches every such exception.
The definitions below embed the loop body's bookkeeping and the response
construction verbatim. -/

/-- One entry of the response's `files` list (`results.append(...)`,
app.py lines 358-365).  The base64 payload is also duplicated into a
legacy `pdf_base64` field in the source; both hold `file_base64`. -/
structure FileEntry where
  issue_key : String
  filename : String
  file_base64 : String
  format : String
  size : Nat
deriving DecidableEq, Repr

/-- One entry of the response's `errors` list (`errors.append(...)`,
app.py lines 377-380). -/
structure ErrEntry where
  issue_key : String
  error : String
deriving DecidableEq, Repr

/-- The JSON body returned by `/api/export` (app.py lines 382-391). -/
structure ExportResponse where
  success : Bool
  files : List FileEntry
  errors : List ErrEntry
  total : Nat
  exported : Nat
  failed : Nat
  format : String
deriving DecidableEq, Repr

/-- The body of the `for issue_key in issue_keys` loop: on success one
file entry is appended to `results`, on an exception one error entry is
appended to `errors` (app.py lines 307-380). -/
def exportStep (process : String → Except String String) (ext : String)
    (acc : List FileEntry × List ErrEntry) (key : String) :
    List FileEntry × List ErrEntry :=
  match process key with
  | .ok b64 =>
      (acc.1 ++ [{ issue_key := key, filename := key ++ "." ++ ext,
                   file_base64 := b64, format := ext, size := b64.length }],
       acc.2)
  | .error e =>
      (acc.1, acc.2 ++ [{ issue_key := key, error := e }])

/-- The batch-export endpoint's loop and response construction
(app.py lines 304-391), for a request that passed the preliminary
validation (non-empty keys, valid format, credentials present). -/
def exportIssues (process : String → Except String String) (ext : String)
    (keys : List String) : ExportResponse :=
  let acc := keys.foldl (exportStep process ext) ([], [])
  { success := true
    files := acc.1
    errors := acc.2
    total := keys.length
    exported := acc.1.length
    failed := acc.2.length
    format := ext }

/-! ## The Normalizer (`server/jira_client.py`)

`field_names` (the ID-to-name table `_get_field_names` caches) is passed
explicitly as an ordered association list; `fields` is the raw field map
of one issue. -/

/-- `None` test. -/
def jIsNull : JValue → Bool
  | .null => true
  | _ => false

/-- Python `v == s` for a string literal `s`: true exactly when `v` is
that string (comparisons across JSON types are `False` in Python). -/
def jIsStr (v : JValue) (s : String) : Bool :=
  match v with
  | .str t => t == s
  | _ => false

mutual

/-- Structural size of a JSON value (computable; used as recursion
fuel). -/
def jSize : JValue → Nat
  | .null => 1
  | .bool _ => 1
  | .num _ => 1
  | .str _ => 1
  | .arr xs => 1 + jSizeList xs
  | .obj kvs => 1 + jSizeKV kvs

/-- Size of a list of values. -/
def jSizeList : List JValue → Nat
  | [] => 0
  | x :: xs => 1 + jSize x + jSizeList xs

/-- Size of an association list. -/
def jSizeKV : List (String × JValue) → Nat
  | [] => 0
  | kv :: kvs => 1 + jSize kv.2 + jSizeKV kvs

end

/-- Python `str()`/`repr()` of a JSON value, `reprMode` selecting `repr`
(strings quoted).  Number formatting is approximate (no claim below
depends on the rendering of numbers); recursion is fuel-bounded by
`sizeOf`, which exceeds the nesting depth of every value. -/
def pyReprAux : Nat → Bool → JValue → String
  | _, _, .null => "None"
  | _, _, .bool b => if b then "True" else "False"
  | _, _, .num q => if q.den == 1 then toString q.num else toString q
  | _, reprMode, .str s => if reprMode then "\x27" ++ s ++ "\x27" else s
  | 0, _, .arr _ => ""
  | 0, _, .obj _ => ""
  | Nat.succ fuel, _, .arr xs =>
      "[" ++ String.intercalate ", " (xs.map (pyReprAux fuel true)) ++ "]"
  | Nat.succ fuel, _, .obj kvs =>
      "\x7b" ++ String.intercalate ", "
        (kvs.map (fun kv => "\x27" ++ kv.1 ++ "\x27: " ++ pyReprAux fuel true kv.2)) ++ "\x7d"

/-- Python `str(v)`. -/
def pyStr (v : JValue) : String := pyReprAux (jSize v) false v

/-- Require a dict (Python raises `AttributeError` on `.get` of
anything else). -/
def guardObj : JValue → Except String (List (String × JValue))
  | .obj kvs => .ok kvs
  | _ => .error "AttributeError"

/-- Require a list (Python raises when iterating a non-list here: its
elements immediately flow into `.get`, so strings and dicts fail too). -/
def asIterList : JValue → Except String (List JValue)
  | .arr xs => .ok xs
  | _ => .error "TypeError"

/-- The `x.get(k, \x7b\x7d).get(k2, d)` idiom. -/
def getGetD (kvs : List (String × JValue)) (k k2 : String) (d : JValue) :
    Except String JValue := do
  let sub ← guardObj (jKGetD kvs k (.obj []))
  .ok (jKGetD sub k2 d)

/-! ### `_extract_text` / `_parse_adf_content` (jira_client.py lines 244-318)

The recursive ADF walk, fuel-bounded: every recursive call decrements
the fuel, and `extractText` seeds it with `sizeOf`, which strictly
exceeds the number of recursion steps along any path of a finite value,
so the `"recursion limit"` branch is unreachable from `extractText`. -/

mutual

/-- `_parse_adf_content`: concatenation of the per-node texts. -/
def adfContent : Nat → List JValue → Except String String
  | _, [] => .ok ""
  | 0, _ :: _ => .error "recursion limit"
  | Nat.succ fuel, node :: rest => do
      let s ← adfNode fuel node
      let t ← adfContent fuel rest
      .ok (s ++ t)

/-- Text of one ADF node (the `if`/`elif` chain of
`_parse_adf_content`). -/
def adfNode : Nat → JValue → Except String String
  | 0, _ => .error "recursion limit"
  | Nat.succ fuel, node => do
      let kvs ← guardObj node
      let nodeType := jKGetD kvs "type" (.str "")
      if jIsStr nodeType "text" then
        match jKGetD kvs "text" (.str "") with
        | .str s => .ok s
        | _ => .error "TypeError"
      else if jIsStr nodeType "paragraph" then do
        let para ← adfContent fuel (← asIterList (jKGetD kvs "content" (.arr [])))
        .ok (para ++ "\n")
      else if jIsStr nodeType "heading" then do
        let htext ← adfContent fuel (← asIterList (jKGetD kvs "content" (.arr [])))
        let attrs ← guardObj (jKGetD kvs "attrs" (.obj []))
        let level ← match jKGetD attrs "level" (.num 1) with
          | .num q =>
              if q.den == 1 then Except.ok (q.num.toNat) else Except.error "TypeError"
          | _ => Except.error "TypeError"
        .ok ("\n" ++ String.mk (List.replicate level '#') ++ " " ++ htext ++ "\n")
      else if jIsStr nodeType "bulletList" then do
        adfBullets fuel (← asIterList (jKGetD kvs "content" (.arr [])))
      else if jIsStr nodeType "orderedList" then do
        adfOrdered fuel 1 (← asIterList (jKGetD kvs "content" (.arr [])))
      else if jIsStr nodeType "listItem" then
        do adfContent fuel (← asIterList (jKGetD kvs "content" (.arr [])))
      else if jIsStr nodeType "codeBlock" then do
        let code ← adfContent fuel (← asIterList (jKGetD kvs "content" (.arr [])))
        .ok ("\n```\n" ++ code ++ "\n```\n")
      else if jIsStr nodeType "blockquote" then do
        let quote ← adfContent fuel (← asIterList (jKGetD kvs "content" (.arr [])))
        .ok ("> " ++ quote)
      else if jIsStr nodeType "hardBreak" then
        .ok "\n"
      else if jIsStr nodeType "mention" then do
        let attrs ← guardObj (jKGetD kvs "attrs" (.obj []))
        .ok ("@" ++ pyStr (jKGetD attrs "text" (.str "user")))
      else if jIsStr nodeType "emoji" then do
        let attrs ← guardObj (jKGetD kvs "attrs" (.obj []))
        match jKGetD attrs "text" (.str "") with
        | .str s => .ok s
        | _ => .error "TypeError"
      else if jIsStr nodeType "inlineCard" || jIsStr nodeType "blockCard" then do
        let attrs ← guardObj (jKGetD kvs "attrs" (.obj []))
        .ok ("[" ++ pyStr (jKGetD attrs "url" (.str "")) ++ "]")
      else if jIsStr nodeType "mediaGroup" || jIsStr nodeType "mediaSingle" then
        .ok "[Media]"
      else if (jLookup kvs "content").isSome then
        do adfContent fuel (← asIterList (jKGetD kvs "content" (.arr [])))
      else
        .ok ""

/-- The `bulletList` item loop. -/
def adfBullets : Nat → List JValue → Except String String
  | _, [] => .ok ""
  | 0, _ :: _ => .error "recursion limit"
  | Nat.succ fuel, item :: rest => do
      let ikvs ← guardObj item
      let itemText ← adfContent fuel (← asIterList (jKGetD ikvs "content" (.arr [])))
      let tail ← adfBullets fuel rest
      .ok ("* " ++ itemText.trim ++ "\n" ++ tail)

/-- The `orderedList` item loop (`enumerate(..., 1)`). -/
def adfOrdered : Nat → Nat → List JValue → Except String String
  | _, _, [] => .ok ""
  | 0, _, _ :: _ => .error "recursion limit"
  | Nat.succ fuel, i, item :: rest => do
      let ikvs ← guardObj item
      let itemText ← adfContent fuel (← asIterList (jKGetD ikvs "content" (.arr [])))
      let tail ← adfOrdered fuel (i + 1) rest
      .ok (toString i ++ ". " ++ itemText.trim ++ "\n" ++ tail)

end

/-- `_extract_text` (jira_client.py lines 244-257): `None` becomes `""`,
strings pass through unchanged, non-dicts are `str()`-ed, and a dict of
type `doc` is walked as ADF. -/
def extractText (content : JValue) : Except String String :=
  match content with
  | .null => .ok ""
  | .str s => .ok s
  | .obj kvs =>
      if jIsStr (jKGet kvs "type") "doc" then
        do adfContent (jSize (JValue.obj kvs)) (← asIterList (jKGetD kvs "content" (.arr [])))
      else .ok (pyStr (.obj kvs))
  | v => .ok (pyStr v)

/-- `_parse_user` (jira_client.py lines 320-328). -/
def parseUser (user : JValue) : Except String JValue :=
  if !jTruthy user then .ok .null
  else do
    let kvs ← guardObj user
    let avatar ←
      if jTruthy (jKGet kvs "avatarUrls") then do
        let av ← guardObj (jKGetD kvs "avatarUrls" (.obj []))
        Except.ok (jKGet av "48x48")
      else Except.ok JValue.null
    .ok (.obj [("name", jKGetD kvs "displayName" (.str "Unknown")),
               ("email", jKGet kvs "emailAddress"),
               ("avatar_url", avatar)])

/-- The `parent` construction of `_parse_issue`
(jira_client.py lines 191-195). -/
def parseParent (parent : JValue) : Except String JValue :=
  if !jTruthy parent then .ok .null
  else do
    let kvs ← guardObj parent
    let sub ← guardObj (jKGetD kvs "fields" (.obj []))
    .ok (.obj [("key", jKGet kvs "key"),
               ("summary", jKGetD sub "summary" (.str ""))])

/-- The value post-processing of `_find_custom_field`
(jira_client.py lines 340-343): `value.get(\x27value\x27) or
value.get(\x27name\x27) or value`. -/
def processFieldValue : JValue → JValue
  | .obj kvs => pyOr (jKGet kvs "value") (pyOr (jKGet kvs "name") (.obj kvs))
  | v => v

/-- `_find_custom_field` (jira_client.py lines 330-344): walk the field
name table in order, returning the processed value of the first field
that is present with a non-`None` value and whose name contains one of
the search terms (case-insensitively); `None` when no field matches. -/
def findCustomField (names : List (String × String)) (fields : List (String × JValue))
    (searchTerms : List String) : JValue :=
  match names with
  | [] => .null
  | (fieldId, fieldName) :: rest =>
      let present := match jLookup fields fieldId with
        | some v => !jIsNull v
        | none => false
      if present && searchTerms.any (fun term => strIn (pyLower term) (pyLower fieldName)) then
        processFieldValue ((jLookup fields fieldId).getD .null)
      else findCustomField rest fields searchTerms

/-- One item of a sprint field's list value (jira_client.py lines
355-362): dict items yield `\x7bname, state\x7d` with defaults, string
items yield `\x7bname := s, state := "unknown"\x7d`, other items are
skipped. -/
def parseSprintItem : JValue → Option JValue
  | .obj kvs => some (.obj [("name", jKGetD kvs "name" (.str "Unknown")),
                            ("state", jKGetD kvs "state" (.str "unknown"))])
  | .str s => some (.obj [("name", .str s), ("state", .str "unknown")])
  | _ => none

/-- The entries one raw field value contributes to `sprints`: only list
values contribute (jira_client.py line 354). -/
def sprintItemsOf : JValue → List JValue
  | .arr items => items.filterMap parseSprintItem
  | _ => []

/-- `_extract_sprints` (jira_client.py lines 346-363): every field of
the name table whose name contains `"sprint"` and which is present in
the raw field map appends its parsed items. -/
def extractSprints (names : List (String × String)) (fields : List (String × JValue)) :
    List JValue :=
  names.foldl (fun sprints nm =>
    if strIn "sprint" (pyLower nm.2) && (jLookup fields nm.1).isSome then
      sprints ++ sprintItemsOf ((jLookup fields nm.1).getD .null)
    else sprints) []

/-- One entry of `_parse_issue_links` (jira_client.py lines 368-385):
either direction of one raw link. -/
def parseLinkDir (tkvs : List (String × JValue)) (typeKey : String)
    (kvs : List (String × JValue)) (issueKey : String) :
    Except String (List JValue) :=
  if jTruthy (jKGet kvs issueKey) then do
    let ikvs ← guardObj (jKGet kvs issueKey)
    let summary ← getGetD ikvs "fields" "summary" (.str "")
    Except.ok [JValue.obj [("type", jKGetD tkvs typeKey (.str "relates to")),
                           ("key", jKGet ikvs "key"),
                           ("summary", summary)]]
  else Except.ok []

/-- `_parse_issue_links` (jira_client.py lines 365-387). -/
def parseIssueLinks (links : List JValue) : Except String (List JValue) := do
  let parts ← links.mapM (fun link => do
    let kvs ← guardObj link
    let tkvs ← guardObj (jKGetD kvs "type" (.obj []))
    let outPart ← parseLinkDir tkvs "outward" kvs "outwardIssue"
    let inPart ← parseLinkDir tkvs "inward" kvs "inwardIssue"
    Except.ok (outPart ++ inPart))
  .ok parts.flatten

/-- Present-key test (Python `k in d`). -/
def hasKey (kvs : List (String × JValue)) (k : String) : Bool :=
  (jLookup kvs k).isSome

/-- Membership of a resolved field name in the skip list of
`_get_all_custom_fields` (jira_client.py lines 395-396, 407). -/
def skipPatterns : List String :=
  ["story point", "sprint", "epic", "rank", "flagged",
   "development", "team", "change reason"]

/-- `any(pattern in field_name.lower() for pattern in skip_patterns)`. -/
def isSkippedName (fieldName : String) : Bool :=
  skipPatterns.any (fun pat => strIn pat (pyLower fieldName))

/-- Python `s.startswith(pre)`. -/
def pyStartsWith (s pre : String) : Bool := pre.data.isPrefixOf s.data

/-- `field_names.get(field_id, field_id)` (jira_client.py line 404). -/
def resolveName (names : List (String × String)) (fieldId : String) : String :=
  (names.lookup fieldId).getD fieldId

/-- One item of a list-valued custom field (jira_client.py lines
425-429): `v.get(\x27value\x27) or v.get(\x27name\x27) or str(v)` for
dicts, `str(v)` otherwise. -/
def convCustomItem : JValue → JValue
  | .obj kvs => pyOr (jKGet kvs "value") (pyOr (jKGet kvs "name") (.str (pyStr (.obj kvs))))
  | v => .str (pyStr v)

/-- The value conversion of `_get_all_custom_fields` (jira_client.py
lines 410-432); `none` means no entry is stored (the empty-list case). -/
def convertCustomValue (value : JValue) : Except String (Option JValue) :=
  match value with
  | .obj kvs =>
      if hasKey kvs "value" then .ok (some (jKGet kvs "value"))
      else if hasKey kvs "name" then .ok (some (jKGet kvs "name"))
      else if hasKey kvs "displayName" then .ok (some (jKGet kvs "displayName"))
      else if hasKey kvs "content" then
        (extractText (.obj kvs)).map (fun s => some (.str s))
      else .ok (some (.str (pyStr (.obj kvs))))
  | .arr items =>
      if items.isEmpty then .ok none
      else .ok (some (.arr (items.map convCustomItem)))
  | v => .ok (some v)

/-- Python dict assignment on an ordered association list: replace in
place when the key exists, append otherwise. -/
def dictInsert (kvs : List (String × JValue)) (k : String) (v : JValue) :
    List (String × JValue) :=
  match kvs with
  | [] => [(k, v)]
  | (k0, v0) :: rest => if k0 = k then (k0, v) :: rest else (k0, v0) :: dictInsert rest k v

/-- The per-field body of `_get_all_custom_fields`
(jira_client.py lines 398-432). -/
def customFieldStep (names : List (String × String))
    (custom : List (String × JValue)) (fieldId : String) (value : JValue) :
    Except String (List (String × JValue)) :=
  if !pyStartsWith fieldId "customfield_" then .ok custom
  else if jIsNull value then .ok custom
  else
    let fieldName := resolveName names fieldId
    if isSkippedName fieldName then .ok custom
    else do
      match (← convertCustomValue value) with
      | some cv => .ok (dictInsert custom fieldName cv)
      | none => .ok custom

/-- `_get_all_custom_fields` (jira_client.py lines 389-434). -/
def getAllCustomFields (names : List (String × String))
    (fields : List (String × JValue)) : Except String (List (String × JValue)) :=
  fields.foldlM (fun custom kv => customFieldStep names custom kv.1 kv.2) []

/-- One entry of the `fix_versions` comprehension
(jira_client.py lines 173-176). -/
def parseVersion : JValue → Except String JValue
  | .obj kvs => .ok (.obj [("name", jKGetD kvs "name" (.str "")),
                           ("released", jKGetD kvs "released" (.bool false))])
  | _ => .error "AttributeError"

/-- One entry of the `subtasks` comprehension
(jira_client.py lines 198-205). -/
def parseSubtask : JValue → Except String JValue
  | .obj kvs => do
      let sub ← guardObj (jKGetD kvs "fields" (.obj []))
      let statusObj ← guardObj (jKGetD sub "status" (.obj []))
      .ok (.obj [("key", jKGet kvs "key"),
                 ("summary", jKGetD sub "summary" (.str "")),
                 ("status", jKGetD statusObj "name" (.str "Unknown"))])
  | _ => .error "AttributeError"

/-- One entry of the `attachments` comprehension
(jira_client.py lines 211-223). -/
def parseAttachment : JValue → Except String JValue
  | .obj kvs => do
      let author ←
        if jTruthy (jKGet kvs "author") then do
          let akvs ← guardObj (jKGetD kvs "author" (.obj []))
          Except.ok (jKGetD akvs "displayName" (.str "Unknown"))
        else Except.ok (JValue.str "Unknown")
      .ok (.obj [("id", jKGet kvs "id"),
                 ("filename", jKGet kvs "filename"),
                 ("size", jKGetD kvs "size" (.num 0)),
                 ("mime_type", jKGetD kvs "mimeType" (.str "")),
                 ("content_url", jKGet kvs "content"),
                 ("thumbnail_url", jKGet kvs "thumbnail"),
                 ("created", jKGet kvs "created"),
                 ("author", author)])
  | _ => .error "AttributeError"

/-- One entry of the `comments` comprehension
(jira_client.py lines 228-237). -/
def parseComment : JValue → Except String JValue
  | .obj kvs => do
      let author ←
        if jTruthy (jKGet kvs "author") then do
          let akvs ← guardObj (jKGetD kvs "author" (.obj []))
          Except.ok (jKGetD akvs "displayName" (.str "Unknown"))
        else Except.ok (JValue.str "Unknown")
      let body ← extractText (jKGet kvs "body")
      .ok (.obj [("id", jKGet kvs "id"),
                 ("author", author),
                 ("body", .str body),
                 ("created", jKGet kvs "created"),
                 ("updated", jKGet kvs "updated")])
  | _ => .error "AttributeError"

/-- The `name`/`icon_url`-style conditional access used for
`issuetype`, `status` and `priority` (jira_client.py lines 147-157):
`fields.get(k, \x7b\x7d).get(sub, d) if fields.get(k) else d`. -/
def condSubField (fields : List (String × JValue)) (k sub : String) (d : JValue) :
    Except String JValue :=
  if jTruthy (jKGet fields k) then do
    let o ← guardObj (jKGetD fields k (.obj []))
    Except.ok (jKGetD o sub d)
  else Except.ok d

/-- The status category access (jira_client.py line 153):
`fields.get(\x27status\x27, \x7b\x7d).get(\x27statusCategory\x27,
\x7b\x7d).get(\x27name\x27) if fields.get(\x27status\x27) else None`. -/
def statusCategory (fields : List (String × JValue)) : Except String JValue :=
  if jTruthy (jKGet fields "status") then do
    let o ← guardObj (jKGetD fields "status" (.obj []))
    let c ← guardObj (jKGetD o "statusCategory" (.obj []))
    Except.ok (jKGet c "name")
  else Except.ok JValue.null

/-- `_parse_issue` (jira_client.py lines 127-242): the Normalizer.  The
returned association list is the canonical Issue Record, with the keys
in the insertion order of the Python dict. -/
def parseIssue (names : List (String × String)) (data : List (String × JValue)) :
    Except String (List (String × JValue)) := do
  let fields ← guardObj (jKGetD data "fields" (.obj []))
  let description ← extractText (jKGet fields "description")
  let itName ← condSubField fields "issuetype" "name" (.str "Unknown")
  let itIcon ← condSubField fields "issuetype" "iconUrl" .null
  let stName ← condSubField fields "status" "name" (.str "Unknown")
  let stCat ← statusCategory fields
  let prName ← condSubField fields "priority" "name" (.str "None")
  let prIcon ← condSubField fields "priority" "iconUrl" .null
  let assignee ← parseUser (jKGet fields "assignee")
  let reporter ← parseUser (jKGet fields "reporter")
  let storyPoints := findCustomField names fields
    ["story points", "storypoints", "story point estimate"]
  let fixVersions ← (← asIterList (pyOr (jKGet fields "fixVersions") (.arr []))).mapM parseVersion
  let components ← (← asIterList (pyOr (jKGet fields "components") (.arr []))).mapM
    (fun c => do Except.ok (jKGetD (← guardObj c) "name" (.str "")))
  let labels := pyOr (jKGet fields "labels") (.arr [])
  let sprints := extractSprints names fields
  let epic := findCustomField names fields ["epic link", "epic name", "parent epic"]
  let parent ← parseParent (jKGet fields "parent")
  let subtasks ← (← asIterList (pyOr (jKGet fields "subtasks") (.arr []))).mapM parseSubtask
  let links ← do
    let ls ← asIterList (pyOr (jKGet fields "issuelinks") (.arr []))
    parseIssueLinks ls
  let attachments ← (← asIterList (pyOr (jKGet fields "attachment") (.arr []))).mapM
    parseAttachment
  let commentList ← asIterList (match jKGetD fields "comment" (.obj []) with
    | .obj ckvs => jKGetD ckvs "comments" (.arr [])
    | _ => .arr [])
  let comments ← commentList.mapM parseComment
  let customFields ← getAllCustomFields names fields
  .ok [("key", jKGet data "key"),
       ("id", jKGet data "id"),
       ("self", jKGet data "self"),
       ("summary", jKGetD fields "summary" (.str "")),
       ("description", .str description),
       ("rendered_description", .str ""),
       ("issue_type", .obj [("name", itName), ("icon_url", itIcon)]),
       ("status", .obj [("name", stName), ("category", stCat)]),
       ("priority", .obj [("name", prName), ("icon_url", prIcon)]),
       ("created", jKGet fields "created"),
       ("updated", jKGet fields "updated"),
       ("resolved", jKGet fields "resolutiondate"),
       ("assignee", assignee),
       ("reporter", reporter),
       ("story_points", storyPoints),
       ("fix_versions", .arr fixVersions),
       ("components", .arr components),
       ("labels", labels),
       ("sprints", .arr sprints),
       ("epic", epic),
       ("parent", parent),
       ("subtasks", .arr subtasks),
       ("links", .arr links),
       ("attachments", .arr attachments),
       ("comments", .arr comments),
       ("custom_fields", .obj customFields)]

/-! ## Renderer text pipeline

The markup cleaners of the three renderers are sequences of
`re.sub(pattern, repl, text)` calls.  Each pattern used by the source is
from a small family (literal runs, greedy negated character classes,
`\s*`, lazy `(.*?)` up to a literal, and greedy `(.+)` under `DOTALL`),
none of which requires backtracking beyond the one `\s*(.+)` case,
which is folded into the dedicated part `wsRest`.  `applyRule` performs
Python's leftmost scan: at each position the whole pattern either
matches (the replacement is emitted and scanning resumes after the
match, without rescanning the replacement) or the character is copied
and the scan advances by one. -/

/-- Whitespace for `\s` and `str.strip()` (ASCII; none of the claims
involve non-ASCII whitespace). -/
def isPySpace (c : Char) : Bool :=
  c = ' ' || c = '\t' || c = '\n' || c = '\r' || c = '\x0b' || c = '\x0c'

/-- One component of a pattern. -/
inductive RulePart where
  /-- a literal run -/
  | lit : List Char → RulePart
  /-- one character from the set (e.g. `[1-6]`) -/
  | charIn : List Char → RulePart
  /-- greedy `[^…]*`, non-capturing -/
  | star : List Char → RulePart
  /-- greedy `([^…]+)`, capturing -/
  | plus : List Char → RulePart
  /-- greedy `\s*`, non-capturing, with nothing after it -/
  | ws : RulePart
  /-- lazy `(.*?)` up to and including a closing literal (`DOTALL`) -/
  | lazyUntil : List Char → RulePart
  /-- `\s*(.+)` under `DOTALL`: consumes the rest of the string, the
  group getting everything after the greedy whitespace run, except that
  when only whitespace remains the engine backtracks one character -/
  | wsRest : RulePart

/-- One component of a replacement template. -/
inductive TPart where
  | lit : List Char → TPart
  | grp : Nat → TPart

/-- A `re.sub(pattern, repl, –)` call. -/
structure Rule where
  parts : List RulePart
  repl : List TPart

/-- Split at the first occurrence of the literal `close`, dropping it
(the lazy `(.*?)close` match). -/
def splitAtFirst (close : List Char) : List Char → Option (List Char × List Char)
  | [] => none
  | c :: rest =>
      if close.isPrefixOf (c :: rest) then some ([], (c :: rest).drop close.length)
      else (splitAtFirst close rest).map (fun p => (c :: p.1, p.2))

/-- Match a pattern at the head of the input, returning the captured
groups and the unconsumed rest. -/
def matchParts : List RulePart → List Char → Option (List (List Char) × List Char)
  | [], s => some ([], s)
  | .lit cs :: ps, s =>
      if cs.isPrefixOf s then matchParts ps (s.drop cs.length) else none
  | .charIn cs :: ps, s =>
      match s with
      | c :: rest => if cs.contains c then matchParts ps rest else none
      | [] => none
  | .star excl :: ps, s =>
      matchParts ps (s.drop (s.takeWhile (fun c => !excl.contains c)).length)
  | .plus excl :: ps, s =>
      let run := s.takeWhile (fun c => !excl.contains c)
      if run.isEmpty then none
      else (matchParts ps (s.drop run.length)).map (fun pr => (run :: pr.1, pr.2))
  | .ws :: ps, s =>
      matchParts ps (s.drop (s.takeWhile isPySpace).length)
  | .lazyUntil close :: ps, s =>
      match splitAtFirst close s with
      | some (mid, rest) => (matchParts ps rest).map (fun pr => (mid :: pr.1, pr.2))
      | none => none
  | .wsRest :: ps, s =>
      if s.isEmpty then none
      else
        let rest := s.drop (s.takeWhile isPySpace).length
        let grp := if rest.isEmpty then s.drop (s.length - 1) else rest
        (matchParts ps []).map (fun pr => (grp :: pr.1, pr.2))

/-- Instantiate a replacement template with the captured groups. -/
def renderRepl (tpl : List TPart) (caps : List (List Char)) : List Char :=
  (tpl.map (fun p => match p with
    | .lit cs => cs
    | .grp i => (caps.get? i).getD [])).flatten

/-- Try a rule at the head of the input. -/
def runRule (r : Rule) (s : List Char) : Option (List Char × List Char) :=
  (matchParts r.parts s).map (fun pr => (renderRepl r.repl pr.1, pr.2))

/-- The leftmost scan of `re.sub`.  Every rule below consumes at least
one character when it matches (its pattern starts with a non-empty
literal), so fuel equal to the input length suffices and the `0` branch
is unreachable from `applyRule`. -/
def applyRuleAux (r : Rule) : Nat → List Char → List Char
  | 0, s => s
  | _ + 1, [] => []
  | fuel + 1, c :: cs =>
      match runRule r (c :: cs) with
      | some (rep, rest) => rep ++ applyRuleAux r fuel rest
      | none => c :: applyRuleAux r fuel cs

/-- `re.sub(pattern, repl, s)`. -/
def applyRule (r : Rule) (s : List Char) : List Char := applyRuleAux r s.length s

/-- The `for pattern, replacement in patterns:` loop shared by all three
cleaners. -/
def applyRules (rs : List Rule) (s : List Char) : List Char :=
  rs.foldl (fun acc r => applyRule r acc) s

/-- Python `str.strip()`. -/
def pyStrip (s : List Char) : List Char :=
  ((s.dropWhile isPySpace).reverse.dropWhile isPySpace).reverse

/-- Shorthand: characters of a string literal. -/
def L (s : String) : List Char := s.data

/-- The pattern list of `MarkdownGenerator._clean_text`
(markdown_generator.py lines 224-242), in source order, all compiled
with `re.DOTALL`. -/
def mdRules : List Rule :=
  [⟨[.lit (L "\x7bcode"), .star ['\x7d'], .lit ['\x7d'], .lazyUntil (L "\x7bcode\x7d")],
    [.lit (L "```\n"), .grp 0, .lit (L "\n```")]⟩,
   ⟨[.lit (L "\x7bnoformat\x7d"), .lazyUntil (L "\x7bnoformat\x7d")],
    [.lit (L "```\n"), .grp 0, .lit (L "\n```")]⟩,
   ⟨[.lit (L "\x7bcolor"), .star ['\x7d'], .lit ['\x7d'], .lazyUntil (L "\x7bcolor\x7d")],
    [.grp 0]⟩,
   ⟨[.lit (L "\x7bpanel"), .star ['\x7d'], .lit ['\x7d'], .lazyUntil (L "\x7bpanel\x7d")],
    [.grp 0]⟩,
   ⟨[.lit (L "h1."), .wsRest], [.lit (L "# "), .grp 0]⟩,
   ⟨[.lit (L "h2."), .wsRest], [.lit (L "## "), .grp 0]⟩,
   ⟨[.lit (L "h3."), .wsRest], [.lit (L "### "), .grp 0]⟩,
   ⟨[.lit (L "h4."), .wsRest], [.lit (L "#### "), .grp 0]⟩,
   ⟨[.lit (L "h5."), .wsRest], [.lit (L "##### "), .grp 0]⟩,
   ⟨[.lit (L "h6."), .wsRest], [.lit (L "###### "), .grp 0]⟩,
   ⟨[.lit ['['], .plus [']', '|'], .lit ['|'], .plus [']'], .lit [']']],
    [.lit (L "["), .grp 0, .lit (L "]("), .grp 1, .lit (L ")")]⟩,
   ⟨[.lit ['*'], .plus ['*'], .lit ['*']], [.lit (L "**"), .grp 0, .lit (L "**")]⟩,
   ⟨[.lit ['_'], .plus ['_'], .lit ['_']], [.lit (L "*"), .grp 0, .lit (L "*")]⟩,
   ⟨[.lit ['+'], .plus ['+'], .lit ['+']], [.lit (L "<u>"), .grp 0, .lit (L "</u>")]⟩,
   ⟨[.lit ['-'], .plus ['-'], .lit ['-']], [.lit (L "~~"), .grp 0, .lit (L "~~")]⟩,
   ⟨[.lit (L "\x7b\x7b"), .plus ['\x7d'], .lit (L "\x7d\x7d")],
    [.lit (L "`"), .grp 0, .lit (L "`")]⟩,
   ⟨[.lit (L "bq."), .wsRest], [.lit (L "> "), .grp 0]⟩]

/-- The pattern list of `PDFGenerator._clean_jira_markup`
(pdf_generator.py lines 657-673), in source order. -/
def pdfRules : List Rule :=
  [⟨[.lit (L "\x7bcode"), .star ['\x7d'], .lit ['\x7d']], []⟩,
   ⟨[.lit (L "\x7bnoformat\x7d")], []⟩,
   ⟨[.lit (L "\x7bcolor"), .star ['\x7d'], .lit ['\x7d']], []⟩,
   ⟨[.lit (L "\x7bpanel"), .star ['\x7d'], .lit ['\x7d']], []⟩,
   ⟨[.lit ['h'], .charIn (L "123456"), .lit ['.'], .ws], []⟩,
   ⟨[.lit ['['], .plus [']', '|'], .lit ['|'], .plus [']'], .lit [']']], [.grp 0]⟩,
   ⟨[.lit ['['], .plus [']'], .lit [']']], [.grp 0]⟩,
   ⟨[.lit ['*'], .plus ['*'], .lit ['*']], [.grp 0]⟩,
   ⟨[.lit ['_'], .plus ['_'], .lit ['_']], [.grp 0]⟩,
   ⟨[.lit ['+'], .plus ['+'], .lit ['+']], [.grp 0]⟩,
   ⟨[.lit ['-'], .plus ['-'], .lit ['-']], [.grp 0]⟩,
   ⟨[.lit ['^'], .plus ['^'], .lit ['^']], [.grp 0]⟩,
   ⟨[.lit ['~'], .plus ['~'], .lit ['~']], [.grp 0]⟩,
   ⟨[.lit (L "\x7b\x7b"), .plus ['\x7d'], .lit (L "\x7d\x7d")], [.grp 0]⟩,
   ⟨[.lit (L "bq."), .ws], []⟩]

/-- The pattern list of `WordGenerator._clean_jira_markup`
(word_generator.py lines 362-372), in source order. -/
def wordRules : List Rule :=
  [⟨[.lit (L "\x7bcode"), .star ['\x7d'], .lit ['\x7d']], []⟩,
   ⟨[.lit (L "\x7bnoformat\x7d")], []⟩,
   ⟨[.lit (L "\x7bcolor"), .star ['\x7d'], .lit ['\x7d']], []⟩,
   ⟨[.lit (L "\x7bpanel"), .star ['\x7d'], .lit ['\x7d']], []⟩,
   ⟨[.lit ['h'], .charIn (L "123456"), .lit ['.'], .ws], []⟩,
   ⟨[.lit ['['], .plus [']', '|'], .lit ['|'], .plus [']'], .lit [']']], [.grp 0]⟩,
   ⟨[.lit ['['], .plus [']'], .lit [']']], [.grp 0]⟩,
   ⟨[.lit ['*'], .plus ['*'], .lit ['*']], [.grp 0]⟩,
   ⟨[.lit ['_'], .plus ['_'], .lit ['_']], [.grp 0]⟩]

/-- `MarkdownGenerator._clean_text` (markdown_generator.py lines
218-251). -/
def cleanTextMd (s : String) : String :=
  if s = "" then ""
  else String.mk (pyStrip (applyRules mdRules s.data))

/-- `PDFGenerator._clean_jira_markup` (pdf_generator.py lines 651-679). -/
def cleanJiraMarkupPdf (s : String) : String :=
  if s = "" then ""
  else String.mk (pyStrip (applyRules pdfRules s.data))

/-- `WordGenerator._clean_jira_markup` (word_generator.py lines
357-378). -/
def cleanJiraMarkupWord (s : String) : String :=
  if s = "" then ""
  else String.mk (pyStrip (applyRules wordRules s.data))

/-- Python slice `s[:n]` (a prefix of at most `n` characters). -/
def pyTake (s : String) (n : Nat) : String := String.mk (s.data.take n)

/-- The text of one comment in the PDF comment section
(pdf_generator.py lines 610-614): `body = _clean_jira_markup(...)`, of
which `body[:1000]` is rendered. -/
def pdfCommentBody (body : String) : String :=
  pyTake (cleanJiraMarkupPdf body) 1000

/-- The text of one comment in the Word comment section
(word_generator.py lines 343-344): `body[:1000]`. -/
def wordCommentBody (body : String) : String :=
  pyTake (cleanJiraMarkupWord body) 1000

/-- The text of one comment in the Markdown comment section
(markdown_generator.py line 207): the cleaned body, untruncated. -/
def mdCommentBody (body : String) : String :=
  cleanTextMd body

/-! ## Renderer image sizing -/

/-- ReportLab's `mm` unit in points (`72 / 25.4`). -/
def mmPt : ℚ := 360 / 127

/-- Default `max_width = 160*mm` of `PDFGenerator._create_image`. -/
def pdfMaxWidth : ℚ := 160 * mmPt

/-- Default `max_height = 200*mm` of `PDFGenerator._create_image`. -/
def pdfMaxHeight : ℚ := 200 * mmPt

/-- The size computation of `PDFGenerator._create_image`
(pdf_generator.py lines 529-535): `ratio = min(width_ratio,
height_ratio, 1.0)` — never enlarging — and both dimensions scaled by
it.  Arithmetic is exact rational (the source uses floats; the claims
concern ratios and bounds, which the float rounding preserves to within
rounding). -/
def createImageSize (origW origH : ℚ) : ℚ × ℚ :=
  let widthRatio := pdfMaxWidth / origW
  let heightRatio := pdfMaxHeight / origH
  let ratio := min (min widthRatio heightRatio) 1
  (origW * ratio, origH * ratio)

/-- The recognized raster-image extensions (identical sets in
pdf_generator.py line 481, word_generator.py line 264,
markdown_generator.py line 177 and app.py line 483). -/
def imageExtensions : List String :=
  [".png", ".jpg", ".jpeg", ".gif", ".bmp", ".webp"]

/-- `os.path.splitext(name)[1]` for a bare file name: the suffix from
the last dot that is preceded (anywhere in the name) by a non-dot
character; `""` when there is none. -/
def splitextExtAux : List Char → Bool → Option (List Char) → Option (List Char)
  | [], _, best => best
  | c :: rest, seen, best =>
      if c = '.' then
        if seen then splitextExtAux rest seen (some (c :: rest))
        else splitextExtAux rest seen best
      else splitextExtAux rest true best

/-- `os.path.splitext(name)[1]`. -/
def splitextExt (name : String) : String :=
  String.mk ((splitextExtAux name.data false none).getD [])

/-- The inline-image guard shared by the PDF and Word attachment
sections (pdf_generator.py line 496, word_generator.py line 281):
`file_ext in image_extensions and filepath and os.path.exists(filepath)`,
with `hasLocalFile` standing for the two filesystem conjuncts. -/
def inlinesImage (filename : String) (hasLocalFile : Bool) : Bool :=
  imageExtensions.contains (pyLower (splitextExt filename)) && hasLocalFile

/-- One EMU per inch (python-docx `Inches`). -/
def emuPerInch : ℚ := 914400

/-- `Inches(5.5)`: the fixed width the Word renderer passes to
`add_picture` (word_generator.py line 283). -/
def docxFixedWidth : ℚ := (11 / 2) * emuPerInch

/-- Models python-docx `Document.add_picture(path, width=Inches(5.5))`:
when only `width` is given the library keeps the aspect ratio, scaling
the height by the same factor; `nativeW`/`nativeH` are the image's
native display size in EMU (pixels / dpi · 914400). -/
def docxPictureSize (nativeW nativeH : ℚ) : ℚ × ℚ :=
  (docxFixedWidth, nativeH * docxFixedWidth / nativeW)

/-- `max_size = (1920, 1080)` of `create_png_summary` (app.py line
507). -/
def pngMaxW : ℚ := 1920

/-- The height bound of `create_png_summary`. -/
def pngMaxH : ℚ := 1080

/-- Models PIL's `Image.thumbnail` rounding helper `round_aspect`:
`max(min(floor(number), ceil(number), key=key), 1)` (ties prefer the
floor). -/
def roundAspect (number : ℚ) (key : ℚ → ℚ) : ℚ :=
  let f : ℚ := (⌊number⌋ : ℤ)
  let c : ℚ := (⌈number⌉ : ℤ)
  max (if key f ≤ key c then f else c) 1

/-- Models PIL `Image.thumbnail((1920, 1080))` as called by
`create_png_summary` (app.py line 508): no-op when the image already
fits, otherwise the long side is clamped and the other side is rounded
to preserve the aspect ratio. -/
def pngThumbSize (w h : ℚ) : ℚ × ℚ :=
  if pngMaxW ≥ w ∧ pngMaxH ≥ h then (w, h)
  else
    let aspect := w / h
    if pngMaxW / pngMaxH ≥ aspect then
      (roundAspect (pngMaxH * aspect) (fun n => |aspect - n / pngMaxH|), pngMaxH)
    else
      (pngMaxW, roundAspect (pngMaxW / aspect)
        (fun n => if n = 0 then 0 else |aspect - pngMaxW / n|))

/-! ## Theorems -/

/-- The file entry a key contributes when its processing succeeds. -/
def fileOf (process : String → Except String String) (ext : String) (k : String) :
    Option FileEntry :=
  match process k with
  | .ok b64 => some { issue_key := k, filename := k ++ "." ++ ext,
                      file_base64 := b64, format := ext, size := b64.length }
  | .error _ => none

/-- The error entry a key contributes when its processing fails. -/
def errOf (process : String → Except String String) (k : String) : Option ErrEntry :=
  match process k with
  | .ok _ => none
  | .error e => some { issue_key := k, error := e }

lemma exportStep_foldl (process : String → Except String String) (ext : String) :
    ∀ (keys : List String) (fs : List FileEntry) (es : List ErrEntry),
    keys.foldl (exportStep process ext) (fs, es) =
      (fs ++ keys.filterMap (fileOf process ext), es ++ keys.filterMap (errOf process)) := by
  intro keys
  induction keys with
  | nil => intro fs es; simp
  | cons k ks ih =>
      intro fs es
      cases h : process k with
      | ok b64 =>
          simp [List.foldl, exportStep, h, ih, fileOf, errOf, List.filterMap_cons]
      | error e =>
          simp [List.foldl, exportStep, h, ih, fileOf, errOf, List.filterMap_cons]

lemma export_counts (process : String → Except String String) (ext : String) :
    ∀ keys : List String,
    (keys.filterMap (fileOf process ext)).length +
      (keys.filterMap (errOf process)).length = keys.length := by
  intro keys
  induction keys with
  | nil => simp
  | cons k ks ih =>
      cases h : process k with
      | ok b64 => simp [List.filterMap_cons, fileOf, errOf, h]; omega
      | error e => simp [List.filterMap_cons, fileOf, errOf, h]; omega

/-- C1: for a non-empty batch, the `files` list holds exactly one entry
per succeeding key and the `errors` list exactly one entry (naming the
key) per failing key, both in request order — so processing continues
past failures — and the response reports `total` = number of requested
keys, `exported` = number of files, `failed` = number of errors, with
`exported + failed = total`. -/
theorem export_issues_batch_report (process : String → Except String String)
    (ext : String) (keys : List String) (_hne : keys ≠ []) :
    (exportIssues process ext keys).files = keys.filterMap (fileOf process ext) ∧
    (exportIssues process ext keys).errors = keys.filterMap (errOf process) ∧
    (∀ ee ∈ (exportIssues process ext keys).errors,
      ∃ k ∈ keys, ∃ msg, process k = .error msg ∧ ee = { issue_key := k, error := msg }) ∧
    (exportIssues process ext keys).total = keys.length ∧
    (exportIssues process ext keys).exported =
      (exportIssues process ext keys).files.length ∧
    (exportIssues process ext keys).failed =
      (exportIssues process ext keys).errors.length ∧
    (exportIssues process ext keys).exported + (exportIssues process ext keys).failed =
      (exportIssues process ext keys).total := by
  have hfold := exportStep_foldl process ext keys [] []
  have hcnt := export_counts process ext keys
  refine ⟨?_, ?_, ?_, ?_, ?_, ?_, ?_⟩ <;>
    simp only [exportIssues, hfold, List.nil_append]
  · intro ee hee
    obtain ⟨k, hk, hkee⟩ := List.mem_filterMap.mp hee
    refine ⟨k, hk, ?_⟩
    cases h : process k with
    | ok b64 => simp [errOf, h] at hkee
    | error e =>
        simp only [errOf, h] at hkee
        exact ⟨e, rfl, (Option.some.inj hkee).symm⟩
  · exact hcnt

/-- Witness for C1: the scenario of the spec — a 3-key batch where the
middle key fails reports `exported = 2`, `failed = 1`, `total = 3`,
with the failing key named in `errors`. -/
theorem export_issues_batch_report_witness :
    (exportIssues (fun k => if k = "K-2" then .error "HTTP 500" else .ok "QUJD")
        "pdf" ["K-1", "K-2", "K-3"]).errors =
      [{ issue_key := "K-2", error := "HTTP 500" }] ∧
    (exportIssues (fun k => if k = "K-2" then .error "HTTP 500" else .ok "QUJD")
        "pdf" ["K-1", "K-2", "K-3"]).exported = 2 ∧
    (exportIssues (fun k => if k = "K-2" then .error "HTTP 500" else .ok "QUJD")
        "pdf" ["K-1", "K-2", "K-3"]).failed = 1 := by
  have h := export_issues_batch_report
    (fun k => if k = "K-2" then .error "HTTP 500" else .ok "QUJD")
    "pdf" ["K-1", "K-2", "K-3"] (by decide)
  refine ⟨?_, ?_, ?_⟩
  · rw [h.2.1]; decide
  · rw [h.2.2.2.2.1, h.1]; decide
  · rw [h.2.2.2.2.2.1, h.2.1]; decide

/-- The loop condition of `_find_custom_field` for one name-table
entry: the field is present with a non-`None` value and its resolved
name contains one of the search terms, case-insensitively. -/
def fieldMatches (fields : List (String × JValue)) (searchTerms : List String)
    (nm : String × String) : Bool :=
  (match jLookup fields nm.1 with
   | some v => !jIsNull v
   | none => false)
  && searchTerms.any (fun term => strIn (pyLower term) (pyLower nm.2))

/-- The condition under which `_extract_sprints` consumes a field. -/
def sprintFieldMatches (fields : List (String × JValue)) (nm : String × String) : Bool :=
  strIn "sprint" (pyLower nm.2) && (jLookup fields nm.1).isSome

lemma findCustomField_eq_find? (fields : List (String × JValue))
    (terms : List String) : ∀ names : List (String × String),
    findCustomField names fields terms =
      (match names.find? (fieldMatches fields terms) with
       | some nm => processFieldValue ((jLookup fields nm.1).getD .null)
       | none => .null) := by
  intro names
  induction names with
  | nil => rfl
  | cons nm rest ih =>
      obtain ⟨fid, fname⟩ := nm
      by_cases h : fieldMatches fields terms (fid, fname)
      · rw [List.find?_cons_of_pos _ h]
        simp only [fieldMatches] at h
        simp only [findCustomField, h, if_true]
      · rw [List.find?_cons_of_neg _ h]
        simp only [fieldMatches] at h
        rw [Bool.not_eq_true] at h
        simp only [findCustomField, h, ih]
        simp

lemma extractSprints_char (fields : List (String × JValue)) :
    ∀ (names : List (String × String)) (acc : List JValue),
    names.foldl (fun sprints nm =>
      if strIn "sprint" (pyLower nm.2) && (jLookup fields nm.1).isSome then
        sprints ++ sprintItemsOf ((jLookup fields nm.1).getD .null)
      else sprints) acc =
      acc ++ ((names.filter (sprintFieldMatches fields)).map
        (fun nm => sprintItemsOf ((jLookup fields nm.1).getD .null))).flatten := by
  intro names
  induction names with
  | nil => intro acc; simp
  | cons nm rest ih =>
      intro acc
      by_cases h : sprintFieldMatches fields nm
      · have h' := h
        simp only [sprintFieldMatches] at h'
        simp only [List.foldl, h', if_true, List.filter_cons, h, ih, List.map_cons,
          List.flatten_cons, List.append_assoc]
      · have h' := h
        simp only [sprintFieldMatches] at h'
        rw [Bool.not_eq_true] at h'
        simp only [List.foldl, h', if_false, List.filter_cons, h, ih]
        simp [h]

/-- C2: a semantic search by `_find_custom_field` (used for
`story_points` and for `epic` in `_parse_issue`) returns the value of
the **first** field-name-table entry that matches (characterized via
`List.find?`, and explicitly: any later matching entries are ignored),
whereas `_extract_sprints` concatenates the parsed values of **every**
field whose resolved name contains `"sprint"`, in table order. -/
theorem semantic_search_tiebreak :
    (∀ (names : List (String × String)) (fields : List (String × JValue))
        (terms : List String),
      findCustomField names fields terms =
        (match names.find? (fieldMatches fields terms) with
         | some nm => processFieldValue ((jLookup fields nm.1).getD .null)
         | none => .null)) ∧
    (∀ (pre : List (String × String)) (nm : String × String)
        (post : List (String × String)) (fields : List (String × JValue))
        (terms : List String),
      (∀ e ∈ pre, fieldMatches fields terms e = false) →
      fieldMatches fields terms nm = true →
      findCustomField (pre ++ nm :: post) fields terms =
        processFieldValue ((jLookup fields nm.1).getD .null)) ∧
    (∀ (names : List (String × String)) (fields : List (String × JValue)),
      extractSprints names fields =
        ((names.filter (sprintFieldMatches fields)).map
          (fun nm => sprintItemsOf ((jLookup fields nm.1).getD .null))).flatten) := by
  refine ⟨fun names fields terms => findCustomField_eq_find? fields terms names,
          ?_, fun names fields => ?_⟩
  · intro pre nm post fields terms hpre hnm
    rw [findCustomField_eq_find? fields terms]
    rw [List.find?_append]
    have : pre.find? (fieldMatches fields terms) = none := by
      rw [List.find?_eq_none]
      intro e he
      simp [hpre e he]
    rw [this, Option.none_or, List.find?_cons_of_pos _ hnm]
  · have h := extractSprints_char fields names []
    rw [List.nil_append] at h
    exact h

/-- Witness for C2: with two story-point fields in the table, the first
(value 5) wins over the second (value 8); with two sprint fields, both
fields' entries are returned, in order. -/
theorem semantic_search_tiebreak_witness :
    findCustomField
        [("customfield_7", "Story Points"), ("customfield_8", "Story point estimate")]
        [("customfield_7", JValue.num 5), ("customfield_8", JValue.num 8)]
        ["story points", "storypoints", "story point estimate"] = JValue.num 5 ∧
    extractSprints
        [("customfield_7", "Sprint"), ("customfield_8", "Old Sprint Field")]
        [("customfield_7", JValue.arr [JValue.str "S1"]),
         ("customfield_8", JValue.arr [JValue.str "S2"])] =
      [JValue.obj [("name", JValue.str "S1"), ("state", JValue.str "unknown")],
       JValue.obj [("name", JValue.str "S2"), ("state", JValue.str "unknown")]] := by
  constructor
  · exact (semantic_search_tiebreak.2.1
      [] ("customfield_7", "Story Points")
      [("customfield_8", "Story point estimate")]
      [("customfield_7", JValue.num 5), ("customfield_8", JValue.num 8)]
      ["story points", "storypoints", "story point estimate"]
      (by intro e he; simp at he) (by decide)).trans rfl
  · exact (semantic_search_tiebreak.2.2
      [("customfield_7", "Sprint"), ("customfield_8", "Old Sprint Field")]
      [("customfield_7", JValue.arr [JValue.str "S1"]),
       ("customfield_8", JValue.arr [JValue.str "S2"])]).trans rfl

/-- Counterexample to C3 as stated: a sprint field whose **raw value**
is the plain string `"Sprint 5"` (not a list) yields **no** entry in
`sprints` — `_extract_sprints` only iterates list values
(jira_client.py line 354), so nothing is parsed from it, while the
claim requires a `\x7bname, state\x7d` entry for it. -/
theorem extract_sprints_plain_value_counterexample :
    extractSprints [("customfield_1", "Sprint")]
      [("customfield_1", JValue.str "Sprint 5")] = [] := rfl

/-- C3 (amended): for a sprint field whose raw value is a **list**,
every item of the list is parsed into a `\x7bname, state\x7d` entry of
`sprints`, regardless of whether the item is a structured object (name
and state read with defaults) or a plain string (the string becomes the
name, state `"unknown"`); non-list raw values contribute no entries. -/
theorem sprint_list_items_parsed (names : List (String × String))
    (fields : List (String × JValue)) (fieldId fieldName : String)
    (items : List JValue)
    (hmem : (fieldId, fieldName) ∈ names)
    (hname : strIn "sprint" (pyLower fieldName) = true)
    (hval : jLookup fields fieldId = some (.arr items)) :
    (∀ item ∈ items,
      (∀ kvs, item = .obj kvs →
        JValue.obj [("name", jKGetD kvs "name" (.str "Unknown")),
                    ("state", jKGetD kvs "state" (.str "unknown"))] ∈
          extractSprints names fields) ∧
      (∀ s, item = .str s →
        JValue.obj [("name", .str s), ("state", .str "unknown")] ∈
          extractSprints names fields)) ∧
    (∀ v, jLookup fields fieldId = some v → (∀ xs, v ≠ .arr xs) →
      sprintItemsOf v = []) := by
  constructor
  · intro item hitem
    have hchar := semantic_search_tiebreak.2.2 names fields
    have hmem' : (fieldId, fieldName) ∈ names.filter (sprintFieldMatches fields) := by
      rw [List.mem_filter]
      exact ⟨hmem, by simp [sprintFieldMatches, hname, hval]⟩
    have hsub : sprintItemsOf ((jLookup fields (fieldId, fieldName).1).getD .null) ∈
        (names.filter (sprintFieldMatches fields)).map
          (fun nm => sprintItemsOf ((jLookup fields nm.1).getD .null)) :=
      List.mem_map_of_mem _ hmem'
    have hlist : sprintItemsOf ((jLookup fields (fieldId, fieldName).1).getD .null) =
        items.filterMap parseSprintItem := by
      simp only [hval, Option.getD_some, sprintItemsOf]
    constructor
    · intro kvs hobj
      rw [hchar]
      refine List.mem_flatten.mpr ⟨_, hsub, ?_⟩
      rw [hlist]
      exact List.mem_filterMap.mpr ⟨item, hitem, by rw [hobj]; rfl⟩
    · intro s hstr
      rw [hchar]
      refine List.mem_flatten.mpr ⟨_, hsub, ?_⟩
      rw [hlist]
      exact List.mem_filterMap.mpr ⟨item, hitem, by rw [hstr]; rfl⟩
  · intro v hv hnotarr
    cases v with
    | arr xs => exact absurd rfl (hnotarr xs)
    | null => rfl
    | bool b => rfl
    | num q => rfl
    | str s => rfl
    | obj kvs => rfl

/-- Witness for C3 (amended): a sprint field holding a two-item list —
one structured object, one plain string — contributes both parsed
entries. -/
theorem sprint_list_items_parsed_witness :
    JValue.obj [("name", JValue.str "S1"), ("state", JValue.str "active")] ∈
      extractSprints [("customfield_1", "Sprint")]
        [("customfield_1", JValue.arr
          [JValue.obj [("name", JValue.str "S1"), ("state", JValue.str "active")],
           JValue.str "S2"])] ∧
    JValue.obj [("name", JValue.str "S2"), ("state", JValue.str "unknown")] ∈
      extractSprints [("customfield_1", "Sprint")]
        [("customfield_1", JValue.arr
          [JValue.obj [("name", JValue.str "S1"), ("state", JValue.str "active")],
           JValue.str "S2"])] := by
  have h := sprint_list_items_parsed [("customfield_1", "Sprint")]
    [("customfield_1", JValue.arr
      [JValue.obj [("name", JValue.str "S1"), ("state", JValue.str "active")],
       JValue.str "S2"])]
    "customfield_1" "Sprint"
    [JValue.obj [("name", JValue.str "S1"), ("state", JValue.str "active")],
     JValue.str "S2"]
    (by simp) (by decide) rfl
  constructor
  · exact (h.1 _ (List.mem_cons_self _ _)).1 _ rfl
  · exact (h.1 _ (List.mem_cons_of_mem _ (List.mem_cons_self _ _))).2 "S2" rfl

lemma mem_dictInsert : ∀ (kvs : List (String × JValue)) (k : String) (v : JValue)
    (kv : String × JValue), kv ∈ dictInsert kvs k v → kv = (k, v) ∨ kv ∈ kvs := by
  intro kvs
  induction kvs with
  | nil => intro k v kv h; simp [dictInsert] at h; exact Or.inl h
  | cons kv0 rest ih =>
      intro k v kv h
      obtain ⟨k0, v0⟩ := kv0
      by_cases hk : k0 = k
      · simp only [dictInsert, hk, if_true] at h
        rcases List.mem_cons.mp h with h | h
        · exact Or.inl h
        · exact Or.inr (List.mem_cons_of_mem _ h)
      · simp only [dictInsert, hk, if_false] at h
        rcases List.mem_cons.mp h with h | h
        · exact Or.inr (by rw [h]; exact List.mem_cons_self _ _)
        · rcases ih k v kv h with h | h
          · exact Or.inl h
          · exact Or.inr (List.mem_cons_of_mem _ h)

lemma customFieldStep_ok_inv (names : List (String × String))
    (custom : List (String × JValue)) (fid : String) (v : JValue)
    (custom' : List (String × JValue))
    (h : customFieldStep names custom fid v = .ok custom')
    (hinv : ∀ kv ∈ custom, isSkippedName kv.1 = false) :
    ∀ kv ∈ custom', isSkippedName kv.1 = false := by
  by_cases h1 : pyStartsWith fid "customfield_"
  case neg =>
    simp only [customFieldStep, h1] at h
    simp only [Bool.not_false, if_true] at h
    exact (Except.ok.inj h) ▸ hinv
  case pos =>
  by_cases h2 : jIsNull v
  case pos =>
    simp only [customFieldStep, h1, h2, Bool.not_true, if_false, if_true] at h
    exact (Except.ok.inj h) ▸ hinv
  case neg =>
  by_cases h3 : isSkippedName (resolveName names fid)
  case pos =>
    simp only [customFieldStep, h1, h2, h3, Bool.not_true, if_false, if_true] at h
    exact (Except.ok.inj h) ▸ hinv
  case neg =>
    simp only [customFieldStep, h1, h2, h3, Bool.not_true, Bool.not_false,
      if_false, if_true] at h
    cases hconv : convertCustomValue v with
    | error e => rw [hconv] at h; exact absurd h (by simp [Bind.bind, Except.bind])
    | ok ov =>
        rw [hconv] at h
        cases ov with
        | none =>
            simp only [Bind.bind, Except.bind] at h
            exact (Except.ok.inj h) ▸ hinv
        | some cv =>
            simp only [Bind.bind, Except.bind] at h
            have hcustom' := Except.ok.inj h
            subst hcustom'
            intro kv hkv
            rcases mem_dictInsert _ _ _ _ hkv with hkv | hkv
            · rw [hkv]
              simpa using (Bool.not_eq_true _).mp (by simpa using h3)
            · exact hinv kv hkv

lemma foldlM_customFieldStep_inv (names : List (String × String)) :
    ∀ (fields : List (String × JValue)) (custom : List (String × JValue))
      (res : List (String × JValue)),
    (∀ kv ∈ custom, isSkippedName kv.1 = false) →
    fields.foldlM (fun c kv => customFieldStep names c kv.1 kv.2) custom = .ok res →
    ∀ kv ∈ res, isSkippedName kv.1 = false := by
  intro fields
  induction fields with
  | nil =>
      intro custom res hinv h
      simp only [List.foldlM_nil] at h
      exact (Except.ok.inj h) ▸ hinv
  | cons f fs ih =>
      intro custom res hinv h
      rw [List.foldlM_cons] at h
      cases hstep : customFieldStep names custom f.1 f.2 with
      | error e => rw [hstep] at h; exact absurd h (by simp [Bind.bind, Except.bind])
      | ok c' =>
          rw [hstep] at h
          simp only [Bind.bind, Except.bind] at h
          exact ih c' res (customFieldStep_ok_inv names custom f.1 f.2 c' hstep hinv) h

/-- C4 (amended): every entry of the normalized `custom_fields` mapping
has a resolved name containing **no** skip-list substring
(case-insensitively), and a field whose raw value is `None` or an empty
list contributes **no** entry; however the claim's further exclusion of
all null/empty **values** does not hold (see the counterexample): an
empty-string value is stored, and a dict `\x7b"value": None\x7d` stores
null. -/
theorem custom_fields_skiplist (names : List (String × String))
    (fields : List (String × JValue)) (res : List (String × JValue))
    (h : getAllCustomFields names fields = .ok res) :
    (∀ kv ∈ res, isSkippedName kv.1 = false) ∧
    (∀ (custom : List (String × JValue)) (fid : String),
      customFieldStep names custom fid .null = .ok custom) ∧
    (∀ (custom : List (String × JValue)) (fid : String),
      customFieldStep names custom fid (.arr []) = .ok custom) := by
  refine ⟨?_, ?_, ?_⟩
  · exact foldlM_customFieldStep_inv names fields [] res (by simp) h
  · intro custom fid
    by_cases h1 : pyStartsWith fid "customfield_" <;>
      simp [customFieldStep, h1, jIsNull]
  · intro custom fid
    by_cases h1 : pyStartsWith fid "customfield_"
    · by_cases h3 : isSkippedName (resolveName names fid) <;>
        simp [customFieldStep, h1, h3, jIsNull, convertCustomValue, Bind.bind, Except.bind]
    · simp [customFieldStep, h1]

/-- Witness for C4: a concrete raw map with one ordinary custom field —
its resolved name passes the skip filter, and null / empty-list valued
fields contribute nothing. -/
theorem custom_fields_skiplist_witness :
    isSkippedName "Release Notes" = false ∧
    customFieldStep [("customfield_1", "Release Notes")] [] "customfield_9" JValue.null =
      .ok [] ∧
    customFieldStep [("customfield_1", "Release Notes")] [] "customfield_9" (JValue.arr []) =
      .ok [] := by
  have h := custom_fields_skiplist [("customfield_1", "Release Notes")]
    [("customfield_1", JValue.str "x")] [("Release Notes", JValue.str "x")] rfl
  exact ⟨h.1 _ (List.mem_cons_self _ _), h.2.1 [] "customfield_9",
    h.2.2 [] "customfield_9"⟩

/-- Counterexample to C4 as stated: the claim also requires that no
entry has a null or empty value, but an empty-string raw value is
stored unchanged (only `None` and empty lists are filtered,
jira_client.py lines 401, 423), and a dict value `\x7b"value":
None\x7d` stores null (line 413). -/
theorem custom_fields_empty_value_counterexample :
    getAllCustomFields [("customfield_1", "Build Number")]
      [("customfield_1", JValue.str "")] = .ok [("Build Number", JValue.str "")] ∧
    getAllCustomFields [("customfield_2", "Approver")]
      [("customfield_2", JValue.obj [("value", JValue.null)])] =
      .ok [("Approver", JValue.null)] :=
  ⟨rfl, rfl⟩

lemma bind_ok {α β : Type} {x : Except String α} {f : α → Except String β} {r : β}
    (h : x >>= f = .ok r) : ∃ a, x = .ok a ∧ f a = .ok r := by
  cases x with
  | ok a => exact ⟨a, rfl, h⟩
  | error e => simp [Bind.bind, Except.bind] at h

/-- The shape the Issue Record invariant requires of `assignee` /
`reporter`: the absence marker or a structure with all three declared
keys. -/
def userShape (v : JValue) : Prop :=
  v = .null ∨ ∃ n e a, v = .obj [("name", n), ("email", e), ("avatar_url", a)]

/-- The shape the invariant requires of `parent`. -/
def parentShape (v : JValue) : Prop :=
  v = .null ∨ ∃ k s, v = .obj [("key", k), ("summary", s)]

lemma parseUser_shape (u : JValue) (r : JValue) (h : parseUser u = .ok r) :
    userShape r := by
  by_cases ht : jTruthy u = true
  · simp only [parseUser, ht, Bool.not_true, Bool.false_eq_true, if_false] at h
    obtain ⟨kvs, hkvs, h⟩ := bind_ok h
    by_cases ha : jTruthy (jKGet kvs "avatarUrls") = true
    · simp only [ha, if_true] at h
      obtain ⟨av, hav, h⟩ := bind_ok h
      obtain ⟨y, hy, h⟩ := bind_ok h
      exact Or.inr ⟨_, _, _, (Except.ok.inj h).symm⟩
    · rw [Bool.not_eq_true] at ha
      simp only [ha, Bool.false_eq_true, if_false] at h
      obtain ⟨y, hy, h⟩ := bind_ok h
      exact Or.inr ⟨_, _, _, (Except.ok.inj h).symm⟩
  · rw [Bool.not_eq_true] at ht
    simp only [parseUser, ht, Bool.not_false, if_true] at h
    exact Or.inl (Except.ok.inj h).symm

lemma parseParent_shape (p : JValue) (r : JValue) (h : parseParent p = .ok r) :
    parentShape r := by
  by_cases ht : jTruthy p = true
  · simp only [parseParent, ht, Bool.not_true, Bool.false_eq_true, if_false] at h
    obtain ⟨kvs, hkvs, h⟩ := bind_ok h
    obtain ⟨sub, hsub, h⟩ := bind_ok h
    exact Or.inr ⟨_, _, (Except.ok.inj h).symm⟩
  · rw [Bool.not_eq_true] at ht
    simp only [parseParent, ht, Bool.not_false, if_true] at h
    exact Or.inl (Except.ok.inj h).symm

/-- C7: in every Issue Record the Normalizer produces, `assignee` and
`reporter` are either the absence marker `None` or a structure with
exactly the keys `name`, `email`, `avatar_url`, and `parent` is either
`None` or a structure with exactly the keys `key`, `summary` — never a
partially filled structure.  (`epic`, also listed by the claim, is a
free-form scalar in the Issue Record, so the structure condition is
vacuous for it; its key is always present.) -/
theorem issue_record_relations (names : List (String × String))
    (data : List (String × JValue)) (rec : List (String × JValue))
    (h : parseIssue names data = .ok rec) :
    userShape (jKGet rec "assignee") ∧ userShape (jKGet rec "reporter") ∧
    parentShape (jKGet rec "parent") ∧ (jLookup rec "epic").isSome = true := by
  simp only [parseIssue] at h
  obtain ⟨fields, hfields, h⟩ := bind_ok h
  obtain ⟨description, hdesc, h⟩ := bind_ok h
  obtain ⟨itName, _, h⟩ := bind_ok h
  obtain ⟨itIcon, _, h⟩ := bind_ok h
  obtain ⟨stName, _, h⟩ := bind_ok h
  obtain ⟨stCat, _, h⟩ := bind_ok h
  obtain ⟨prName, _, h⟩ := bind_ok h
  obtain ⟨prIcon, _, h⟩ := bind_ok h
  obtain ⟨assignee, hassignee, h⟩ := bind_ok h
  obtain ⟨reporter, hreporter, h⟩ := bind_ok h
  obtain ⟨fvList, _, h⟩ := bind_ok h
  obtain ⟨fixVersions, _, h⟩ := bind_ok h
  obtain ⟨cList, _, h⟩ := bind_ok h
  obtain ⟨components, _, h⟩ := bind_ok h
  obtain ⟨parent, hparent, h⟩ := bind_ok h
  obtain ⟨stList, _, h⟩ := bind_ok h
  obtain ⟨subtasks, _, h⟩ := bind_ok h
  obtain ⟨lnList, _, h⟩ := bind_ok h
  obtain ⟨links, _, h⟩ := bind_ok h
  obtain ⟨attList, _, h⟩ := bind_ok h
  obtain ⟨attachments, _, h⟩ := bind_ok h
  obtain ⟨commentList, _, h⟩ := bind_ok h
  obtain ⟨comments, _, h⟩ := bind_ok h
  obtain ⟨customFields, _, h⟩ := bind_ok h
  have hrec := (Except.ok.inj h).symm
  subst hrec
  exact ⟨parseUser_shape _ _ hassignee, parseUser_shape _ _ hreporter,
    parseParent_shape _ _ hparent, rfl⟩

/-- Witness for C7: parsing a raw map with a present assignee and an
absent parent yields the fully-populated user structure and the `None`
parent. -/
theorem issue_record_relations_witness :
    userShape (JValue.obj [("name", JValue.str "Ann"), ("email", JValue.null),
      ("avatar_url", JValue.null)]) ∧ userShape JValue.null ∧ parentShape JValue.null := by
  have h := issue_record_relations []
    [("key", JValue.str "A-1"),
     ("fields", JValue.obj [("assignee", JValue.obj [("displayName", JValue.str "Ann")])])]
    _ rfl
  exact ⟨h.1, h.2.1, h.2.2.1⟩

/-- C8: normalization is a pure function of the raw field map and the
field-name table — two runs on identical input produce identical Issue
Records. -/
theorem normalizer_deterministic (names : List (String × String))
    (data : List (String × JValue))
    (r1 r2 : Except String (List (String × JValue)))
    (h1 : parseIssue names data = r1) (h2 : parseIssue names data = r2) :
    r1 = r2 :=
  h1 ▸ h2 ▸ rfl

/-- Witness for C8: two runs on a concrete raw map agree. -/
theorem normalizer_deterministic_witness :
    parseIssue [] [("key", JValue.str "A-1")] = parseIssue [] [("key", JValue.str "A-1")] :=
  normalizer_deterministic [] [("key", JValue.str "A-1")] _ _ rfl rfl

/-- C9: a custom field resolving to "QA Tester" whose value is the
object `\x7b"displayName": "QA Team"\x7d` (no `value`/`name` key)
normalizes to `custom_fields["QA Tester"] = "QA Team"` — both at the
`_get_all_custom_fields` level and inside the full Issue Record. -/
theorem qa_tester_scenario :
    getAllCustomFields [("customfield_9", "QA Tester")]
      [("customfield_9", JValue.obj [("displayName", JValue.str "QA Team")])] =
      .ok [("QA Tester", JValue.str "QA Team")] ∧
    ∃ rec, parseIssue [("customfield_9", "QA Tester")]
        [("key", JValue.str "QA-1"),
         ("fields", JValue.obj
           [("customfield_9", JValue.obj [("displayName", JValue.str "QA Team")])])] =
        .ok rec ∧
      jLookup rec "custom_fields" =
        some (JValue.obj [("QA Tester", JValue.str "QA Team")]) :=
  ⟨rfl, _, rfl, rfl⟩

/-- C10: `_extract_text` returns an already-plain string unchanged, so
applying the conversion to its own output equals applying it once
(idempotence on plain strings). -/
theorem extract_text_plain_idempotent (s : String) :
    extractText (.str s) = .ok s ∧
    (extractText (.str s)).bind (fun t => extractText (.str t)) = extractText (.str s) :=
  ⟨rfl, rfl⟩

/-- The first character a rule's pattern can match (every pattern of
the three cleaners opens with a literal). -/
def headTrigger : Rule → Option Char
  | ⟨.lit (t :: _) :: _, _⟩ => some t
  | _ => none

/-- A rule whose pattern cannot start at the letter `a`. -/
def trigNotA (r : Rule) : Bool :=
  match headTrigger r with
  | some t => t != 'a'
  | none => false

lemma string_mk_length (l : List Char) : (String.mk l).length = l.length := rfl

lemma runRule_none_of_head_ne (r : Rule) (t : Char) (hr : headTrigger r = some t)
    (c : Char) (cs : List Char) (hc : c ≠ t) : runRule r (c :: cs) = none := by
  obtain ⟨parts, repl⟩ := r
  cases parts with
  | nil => exact absurd hr (by simp [headTrigger])
  | cons p ps =>
      cases p with
      | lit l =>
          cases l with
          | nil => exact absurd hr (by simp [headTrigger])
          | cons t' ts =>
              have ht' : t' = t := by simpa [headTrigger] using hr
              have hbeq : (t' == c) = false :=
                beq_eq_false_iff_ne.mpr (by rw [ht']; exact Ne.symm hc)
              have hpre : List.isPrefixOf (t' :: ts) (c :: cs) = false := by
                show ((t' == c) && List.isPrefixOf ts cs) = false
                rw [hbeq]
                rfl
              simp [runRule, matchParts, hpre]
      | charIn l => exact absurd hr (by simp [headTrigger])
      | star l => exact absurd hr (by simp [headTrigger])
      | plus l => exact absurd hr (by simp [headTrigger])
      | ws => exact absurd hr (by simp [headTrigger])
      | lazyUntil l => exact absurd hr (by simp [headTrigger])
      | wsRest => exact absurd hr (by simp [headTrigger])

lemma applyRuleAux_id (r : Rule) (t : Char) (hr : headTrigger r = some t) :
    ∀ (fuel : Nat) (s : List Char), (∀ c ∈ s, c ≠ t) →
      applyRuleAux r fuel s = s := by
  intro fuel
  induction fuel with
  | zero => intro s _; rfl
  | succ n ih =>
      intro s hs
      cases s with
      | nil => rfl
      | cons c cs =>
          rw [applyRuleAux, runRule_none_of_head_ne r t hr c cs
            (hs c (List.mem_cons_self _ _))]
          rw [ih cs (fun d hd => hs d (List.mem_cons_of_mem _ hd))]

lemma applyRules_id_of_all_trigNotA (rs : List Rule)
    (hall : rs.all trigNotA = true) (n : Nat) :
    applyRules rs (List.replicate n 'a') = List.replicate n 'a' := by
  induction rs with
  | nil => rfl
  | cons r rest ih =>
      rw [List.all_cons, Bool.and_eq_true] at hall
      have hone : applyRule r (List.replicate n 'a') = List.replicate n 'a' := by
        cases hhead : headTrigger r with
        | none => simp [trigNotA, hhead] at hall
        | some t =>
            have ht : t ≠ 'a' := by
              have := hall.1
              simp only [trigNotA, hhead, bne_iff_ne] at this
              exact this
            exact applyRuleAux_id r t hhead _ _
              (fun c hc => by rw [List.eq_of_mem_replicate hc]; exact Ne.symm ht)
      show applyRules rest (applyRule r (List.replicate n 'a')) = _
      rw [hone]
      exact ih hall.2

lemma pyStrip_replicate_a (n : Nat) :
    pyStrip (List.replicate n 'a') = List.replicate n 'a' := by
  have hdrop : ∀ m : Nat, (List.replicate m 'a').dropWhile isPySpace = List.replicate m 'a' := by
    intro m
    cases m with
    | zero => rfl
    | succ k => simp [List.replicate_succ, List.dropWhile_cons, isPySpace]
  simp only [pyStrip, hdrop, List.reverse_replicate, hdrop, List.reverse_replicate]

lemma cleanTextMd_plain (n : Nat) :
    cleanTextMd (String.mk (List.replicate n 'a')) = String.mk (List.replicate n 'a') := by
  cases n with
  | zero => rfl
  | succ k =>
      have hne : String.mk (List.replicate (k + 1) 'a') ≠ "" := by
        simp [List.replicate_succ, String.ext_iff]
      rw [cleanTextMd, if_neg hne]
      rw [show (String.mk (List.replicate (k + 1) 'a')).data = List.replicate (k + 1) 'a' from rfl]
      rw [applyRules_id_of_all_trigNotA mdRules (by rfl) (k + 1)]
      rw [pyStrip_replicate_a]

/-- Counterexample to C5 as stated: the Markdown renderer applies **no**
cap to comment bodies (markdown_generator.py line 207 emits the cleaned
body whole), so no maximum character length bounds every rendered
comment body across the three renderers: a plain body of `N + 1`
letters survives cleaning unchanged and exceeds any proposed bound
`N`. -/
theorem comment_cap_counterexample :
    ¬ ∃ N : Nat, ∀ body : String,
      (pdfCommentBody body).length ≤ N ∧ (wordCommentBody body).length ≤ N ∧
      (mdCommentBody body).length ≤ N := by
  rintro ⟨N, hN⟩
  have h := (hN (String.mk (List.replicate (N + 1) 'a'))).2.2
  rw [mdCommentBody, cleanTextMd_plain] at h
  rw [string_mk_length, List.length_replicate] at h
  omega

/-- C5 (amended): the PDF and Word renderers cap each rendered comment
body at 1000 characters (`body[:1000]`); the Markdown renderer emits
the cleaned comment body without truncation — a plain comment of any
length `n` is rendered with all `n` characters. -/
theorem comment_body_caps (body : String) (n : Nat) :
    (pdfCommentBody body).length ≤ 1000 ∧
    (wordCommentBody body).length ≤ 1000 ∧
    (mdCommentBody (String.mk (List.replicate n 'a'))).length = n := by
  refine ⟨?_, ?_, ?_⟩
  · rw [pdfCommentBody, pyTake, string_mk_length]
    exact List.length_take_le _ _
  · rw [wordCommentBody, pyTake, string_mk_length]
    exact List.length_take_le _ _
  · rw [mdCommentBody, cleanTextMd_plain, string_mk_length, List.length_replicate]

lemma roundAspect_le (e : ℚ) (key : ℚ → ℚ) (z : ℤ) (hz : 1 ≤ z) (he : e ≤ (z : ℚ)) :
    roundAspect e key ≤ (z : ℚ) := by
  unfold roundAspect
  apply max_le _ (by exact_mod_cast hz)
  have hceil : ((⌈e⌉ : ℤ) : ℚ) ≤ (z : ℚ) := by exact_mod_cast Int.ceil_le.mpr he
  have hfloor : ((⌊e⌋ : ℤ) : ℚ) ≤ ((⌈e⌉ : ℤ) : ℚ) := by exact_mod_cast Int.floor_le_ceil e
  split <;> linarith

lemma roundAspect_near (e : ℚ) (key : ℚ → ℚ) (he : 0 < e) :
    |roundAspect e key - e| ≤ 1 := by
  unfold roundAspect
  have hf1 : ((⌊e⌋ : ℤ) : ℚ) ≤ e := Int.floor_le e
  have hf2 : e < ((⌊e⌋ : ℤ) : ℚ) + 1 := Int.lt_floor_add_one e
  have hc1 : e ≤ ((⌈e⌉ : ℤ) : ℚ) := Int.le_ceil e
  have hc2 : ((⌈e⌉ : ℤ) : ℚ) < e + 1 := Int.ceil_lt_add_one e
  rw [abs_le]
  simp only [roundAspect]
  split_ifs with hk
  · rcases max_cases ((⌊e⌋ : ℤ) : ℚ) 1 with ⟨hm, hb⟩ | ⟨hm, hb⟩ <;> rw [hm] <;>
      constructor <;> linarith
  · rcases max_cases ((⌈e⌉ : ℤ) : ℚ) 1 with ⟨hm, hb⟩ | ⟨hm, hb⟩ <;> rw [hm] <;>
      constructor <;> linarith

/-- Counterexample to C6 as stated: the Word renderer passes a fixed
`width=Inches(5.5)` to `add_picture` (word_generator.py line 283), so a
100×100-pixel image at 72 dpi (native display size 1270000 EMU) is
emitted 5029200 EMU wide — scaled **above** its original size,
contradicting "the image is never scaled above its original size". -/
theorem image_no_upscale_counterexample :
    (docxPictureSize 1270000 1270000).1 > 1270000 := by
  norm_num [docxPictureSize, docxFixedWidth, emuPerInch]

/-- C6 (amended): the PDF renderer preserves the aspect ratio exactly,
keeps both emitted dimensions within the 160mm×200mm maxima, and never
upscales; images are inlined (hence scaled) by the PDF/Word attachment
sections only when the filename's lower-cased extension is a
recognized raster-image extension; the Word renderer still preserves
the aspect ratio but forces a fixed 5.5-inch width (so it can upscale —
see the counterexample — and does not bound the height); the PNG
summary keeps both dimensions within 1920×1080, never upscales, and
preserves the aspect ratio to within rounding (cross products differ by
at most one source dimension). -/
theorem inline_image_scaling :
    (∀ w h : ℚ, 0 < w → 0 < h →
      (createImageSize w h).1 * h = (createImageSize w h).2 * w ∧
      (createImageSize w h).1 ≤ pdfMaxWidth ∧
      (createImageSize w h).2 ≤ pdfMaxHeight ∧
      (createImageSize w h).1 ≤ w ∧ (createImageSize w h).2 ≤ h) ∧
    (∀ (filename : String) (b : Bool), inlinesImage filename b = true →
      imageExtensions.contains (pyLower (splitextExt filename)) = true) ∧
    (∀ w h : ℚ, 0 < w → 0 < h →
      (docxPictureSize w h).1 * h = (docxPictureSize w h).2 * w) ∧
    (∀ w h : ℕ, 1 ≤ w → 1 ≤ h →
      (pngThumbSize w h).1 ≤ 1920 ∧ (pngThumbSize w h).2 ≤ 1080 ∧
      (pngThumbSize w h).1 ≤ w ∧ (pngThumbSize w h).2 ≤ h ∧
      |(pngThumbSize w h).1 * h - (pngThumbSize w h).2 * w| ≤ max (w : ℚ) h) := by
  refine ⟨fun w h hw hh => ?_, fun filename b hb => ?_, fun w h hw hh => ?_,
    fun w h hw hh => ?_⟩
  · have hab : createImageSize w h =
        (w * min (min (pdfMaxWidth / w) (pdfMaxHeight / h)) 1,
         h * min (min (pdfMaxWidth / w) (pdfMaxHeight / h)) 1) := rfl
    rw [hab]
    have hWpos : (0:ℚ) < pdfMaxWidth := by norm_num [pdfMaxWidth, mmPt]
    have hHpos : (0:ℚ) < pdfMaxHeight := by norm_num [pdfMaxHeight, mmPt]
    have hr_wr : min (min (pdfMaxWidth / w) (pdfMaxHeight / h)) 1 ≤ pdfMaxWidth / w :=
      le_trans (min_le_left _ _) (min_le_left _ _)
    have hr_hr : min (min (pdfMaxWidth / w) (pdfMaxHeight / h)) 1 ≤ pdfMaxHeight / h :=
      le_trans (min_le_left _ _) (min_le_right _ _)
    have hr_one : min (min (pdfMaxWidth / w) (pdfMaxHeight / h)) 1 ≤ 1 :=
      min_le_right _ _
    refine ⟨by ring, ?_, ?_, ?_, ?_⟩
    · calc w * min (min (pdfMaxWidth / w) (pdfMaxHeight / h)) 1
          ≤ w * (pdfMaxWidth / w) := by
            exact mul_le_mul_of_nonneg_left hr_wr hw.le
        _ = pdfMaxWidth := by rw [mul_comm, div_mul_cancel₀ _ (ne_of_gt hw)]
    · calc h * min (min (pdfMaxWidth / w) (pdfMaxHeight / h)) 1
          ≤ h * (pdfMaxHeight / h) := by
            exact mul_le_mul_of_nonneg_left hr_hr hh.le
        _ = pdfMaxHeight := by rw [mul_comm, div_mul_cancel₀ _ (ne_of_gt hh)]
    · calc w * min (min (pdfMaxWidth / w) (pdfMaxHeight / h)) 1
          ≤ w * 1 := mul_le_mul_of_nonneg_left hr_one hw.le
        _ = w := mul_one w
    · calc h * min (min (pdfMaxWidth / w) (pdfMaxHeight / h)) 1
          ≤ h * 1 := mul_le_mul_of_nonneg_left hr_one hh.le
        _ = h := mul_one h
  · simp only [inlinesImage, Bool.and_eq_true] at hb
    exact hb.1
  · have hd : docxPictureSize w h = (docxFixedWidth, h * docxFixedWidth / w) := rfl
    rw [hd]
    field_simp
    ring
  · have hwq : (0:ℚ) < (w : ℚ) := by exact_mod_cast Nat.lt_of_lt_of_le Nat.zero_lt_one hw
    have hhq : (0:ℚ) < (h : ℚ) := by exact_mod_cast Nat.lt_of_lt_of_le Nat.zero_lt_one hh
    by_cases hfit : pngMaxW ≥ (w : ℚ) ∧ pngMaxH ≥ (h : ℚ)
    · rw [pngThumbSize, if_pos hfit]
      have h1920 : (w : ℚ) ≤ 1920 := by simpa [pngMaxW] using hfit.1
      have h1080 : (h : ℚ) ≤ 1080 := by simpa [pngMaxH] using hfit.2
      refine ⟨h1920, h1080, le_refl _, le_refl _, ?_⟩
      rw [mul_comm]
      simp only [sub_self, abs_zero]
      positivity
    · have hsplit : (1920 : ℚ) < w ∨ (1080 : ℚ) < h := by
        rcases not_and_or.mp hfit with h1 | h1
        · exact Or.inl (by simpa [pngMaxW] using lt_of_not_ge h1)
        · exact Or.inr (by simpa [pngMaxH] using lt_of_not_ge h1)
      by_cases hbr : pngMaxW / pngMaxH ≥ (w : ℚ) / h
      · rw [pngThumbSize, if_neg hfit, if_pos hbr]
        have hcross : (w : ℚ) * 1080 ≤ 1920 * h := by
          rw [ge_iff_le, div_le_div_iff₀ hhq (by norm_num [pngMaxH]),
            show pngMaxW = (1920:ℚ) from rfl, show pngMaxH = (1080:ℚ) from rfl] at hbr
          linarith
        have hh1080 : (1080 : ℚ) ≤ h := by
          rcases hsplit with hcase | hcase
          · nlinarith
          · linarith
        set e : ℚ := pngMaxH * ((w : ℚ) / h) with he_def
        have he_eq : e = 1080 * w / h := by
          rw [he_def, show pngMaxH = (1080:ℚ) from rfl]
          ring
        have he_pos : 0 < e := by rw [he_eq]; positivity
        have he_le_w : e ≤ (w : ℚ) := by
          rw [he_eq, div_le_iff₀ hhq]
          nlinarith
        have he_le : e ≤ 1920 := by
          rw [he_eq, div_le_iff₀ hhq]
          linarith
        have hx1920 : roundAspect e (fun n => |(w : ℚ) / h - n / pngMaxH|) ≤ (1920 : ℚ) := by
          have := roundAspect_le e (fun n => |(w : ℚ) / h - n / pngMaxH|) 1920
            (by norm_num) (by exact_mod_cast he_le)
          exact_mod_cast this
        have hxw : roundAspect e (fun n => |(w : ℚ) / h - n / pngMaxH|) ≤ (w : ℚ) := by
          have := roundAspect_le e (fun n => |(w : ℚ) / h - n / pngMaxH|) (w : ℤ)
            (by exact_mod_cast hw) (by exact_mod_cast he_le_w)
          exact_mod_cast this
        have hnear := roundAspect_near e (fun n => |(w : ℚ) / h - n / pngMaxH|) he_pos
        refine ⟨hx1920, by norm_num [pngMaxH], hxw, by simpa [pngMaxH] using hh1080, ?_⟩
        have heh : e * h = 1080 * (w : ℚ) := by
          rw [he_eq]
          field_simp
        have hprod : roundAspect e (fun n => |(w : ℚ) / h - n / pngMaxH|) * h -
            pngMaxH * w =
            (roundAspect e (fun n => |(w : ℚ) / h - n / pngMaxH|) - e) * h := by
          rw [show pngMaxH = (1080:ℚ) from rfl]
          linear_combination heh
        rw [hprod, abs_mul, abs_of_pos hhq]
        calc |roundAspect e (fun n => |(w : ℚ) / h - n / pngMaxH|) - e| * h
            ≤ 1 * h := mul_le_mul_of_nonneg_right hnear hhq.le
          _ = h := one_mul _
          _ ≤ max (w : ℚ) h := le_max_right _ _
      · rw [pngThumbSize, if_neg hfit, if_neg hbr]
        have hcross : (1920 : ℚ) * h < w * 1080 := by
          rw [ge_iff_le, not_le, div_lt_div_iff₀ (by norm_num [pngMaxH]) hhq,
            show pngMaxW = (1920:ℚ) from rfl, show pngMaxH = (1080:ℚ) from rfl] at hbr
          linarith
        have hw1920 : (1920 : ℚ) ≤ w := by
          rcases hsplit with hcase | hcase
          · linarith
          · nlinarith
        set e : ℚ := pngMaxW / ((w : ℚ) / h) with he_def
        have he_eq : e = 1920 * h / w := by
          rw [he_def, show pngMaxW = (1920:ℚ) from rfl, div_div_eq_mul_div]
        have he_pos : 0 < e := by rw [he_eq]; positivity
        have he_le_h : e ≤ (h : ℚ) := by
          rw [he_eq, div_le_iff₀ hwq]
          nlinarith
        have he_le : e ≤ 1080 := by
          rw [he_eq, div_le_iff₀ hwq]
          linarith
        set key := fun n : ℚ => if n = 0 then (0:ℚ) else |(w : ℚ) / h - pngMaxW / n|
          with hkey
        have hy1080 : roundAspect e key ≤ (1080 : ℚ) := by
          have := roundAspect_le e key 1080 (by norm_num) (by exact_mod_cast he_le)
          exact_mod_cast this
        have hyh : roundAspect e key ≤ (h : ℚ) := by
          have := roundAspect_le e key (h : ℤ)
            (by exact_mod_cast hh) (by exact_mod_cast he_le_h)
          exact_mod_cast this
        have hnear := roundAspect_near e key he_pos
        refine ⟨by norm_num [pngMaxW], hy1080, by simpa [pngMaxW] using hw1920, hyh, ?_⟩
        have heh : e * w = 1920 * (h : ℚ) := by
          rw [he_eq]
          field_simp
        have hprod : pngMaxW * h - roundAspect e key * w =
            (e - roundAspect e key) * w := by
          rw [show pngMaxW = (1920:ℚ) from rfl]
          linear_combination -heh
        rw [hprod, abs_mul, abs_of_pos hwq, abs_sub_comm]
        calc |roundAspect e key - e| * w
            ≤ 1 * w := mul_le_mul_of_nonneg_right hnear hwq.le
          _ = w := one_mul _
          _ ≤ max (w : ℚ) h := le_max_left _ _

/-- Witness for C6 (amended): a 2000×1000 image is shrunk by the PDF
renderer within all bounds, and a 3840×2160 image is thumbnailed to at
most 1920×1080 with no upscaling by the PNG path. -/
theorem inline_image_scaling_witness :
    (createImageSize 2000 1000).1 ≤ pdfMaxWidth ∧
    (createImageSize 2000 1000).1 ≤ 2000 ∧
    (pngThumbSize 3840 2160).1 ≤ 1920 ∧
    (pngThumbSize 3840 2160).2 ≤ 2160 := by
  have h1 := inline_image_scaling.1 2000 1000 (by norm_num) (by norm_num)
  have h4 := inline_image_scaling.2.2.2 3840 2160 (by norm_num) (by norm_num)
  refine ⟨h1.2.1, h1.2.2.2.1, ?_, ?_⟩
  · have := h4.1
    norm_num at this ⊢
    exact this
  · have := h4.2.2.2.1
    norm_num at this ⊢
    exact this

end Jiraexport
